import Mathlib

set_option maxHeartbeats 1000000
set_option linter.unusedVariables false

/-! Verification of the JOS kernel monitor (kern/monitor.c): the
tokenizer and dispatcher, the stack unwinder, the page-mapping inspector
and the memory-constant resolver, shallowly embedded over an explicit
environment for the external collaborators (address-space accessor,
debug-info resolver, raw memory, the frame-pointer register and the
physical page count).  Machine words are Nat with explicit reduction
modulo 2 ^ 32 where 32-bit overflow matters; console output is collected
into lists of strings, one string per printed line. -/

/-- Characters of the WHITESPACE string of runcmd: tab, carriage return,
newline and space (monitor.c line 201). -/
def isWS (c : Char) : Bool :=
  c == '\t' || c == '\r' || c == '\n' || c == ' '

/-- Maximal non-whitespace runs of a line, in left-to-right order: the
specification-side description of the argument list the tokenizer must
produce (drop leading whitespace, take the maximal non-whitespace prefix
as one run, continue after it). -/
def runs (cs : List Char) : List (List Char) :=
  match h : cs.dropWhile isWS with
  | [] => []
  | c :: rest =>
    (c :: rest.takeWhile (fun x => !isWS x)) :: runs (rest.dropWhile (fun x => !isWS x))
termination_by cs.length
decreasing_by
  have h1 : (cs.dropWhile isWS).length ≤ cs.length := (List.dropWhile_sublist _).length_le
  have h2 : (rest.dropWhile (fun x => !isWS x)).length ≤ rest.length :=
    (List.dropWhile_sublist _).length_le
  rw [h] at h1
  simp only [List.length_cons] at h1
  omega

/-- Generalization of runs to a tokenizer state with a partially scanned
token: the open token (held in reverse) is glued to the rest of its run at
the front of the remaining input, followed by the runs of what is left.
With no open token this is exactly runs. -/
def glueRuns : List Char → List Char → List (List Char)
  | [], cs => runs cs
  | d :: ds, cs =>
    ((d :: ds).reverse ++ cs.takeWhile (fun x => !isWS x))
      :: runs (cs.dropWhile (fun x => !isWS x))

/-- Structurally recursive twin of runs (one character of lookahead
decides whether the head extends the first run), kept for concrete
evaluation; proved equal to runs below. -/
def runsE : List Char → List (List Char)
  | [] => []
  | c :: cs =>
    if isWS c then runsE cs
    else
      match cs with
      | [] => [[c]]
      | c2 :: _ =>
        if isWS c2 then [c] :: runsE cs
        else
          match runsE cs with
          | [] => [[c]]
          | r :: rs => (c :: r) :: rs

/-- Maximum number of argument slots of runcmd, the last reserved as a
null terminator (monitor.c line 202). -/
def MAXARGS : Nat := 16

/-- Argument tokenizer of runcmd (monitor.c lines 211-230), processed one
character at a time: cur holds the characters of the token currently being
scanned, in reverse, and acc the completed arguments, in reverse.  When a
token is about to be saved while argc has already reached MAXARGS - 1 = 15,
tokenization aborts (the C code prints the too-many-arguments message and
returns 0 at that point); none reports that abort to runcmd. -/
def tokenizeAux : List Char → List Char → List String → Option (List String)
  | [], [], acc => some acc.reverse
  | [], d :: ds, acc => some ((String.mk (d :: ds).reverse) :: acc).reverse
  | c :: cs, [], acc =>
    if isWS c then tokenizeAux cs [] acc
    else if acc.length = MAXARGS - 1 then none
    else tokenizeAux cs [c] acc
  | c :: cs, d :: ds, acc =>
    if isWS c then tokenizeAux cs [] ((String.mk (d :: ds).reverse) :: acc)
    else tokenizeAux cs (c :: d :: ds) acc

/-- Whitespace splitting of one whole input line into argc/argv. -/
def tokenize (buf : String) : Option (List String) :=
  tokenizeAux buf.toList [] []

/-- Single hexadecimal digit, lowercase, as printed by cprintf with x
conversion. -/
def hexDigit (n : Nat) : Char :=
  if n < 10 then Char.ofNat (48 + n) else Char.ofNat (87 + n)

/-- Zero-padded eight-digit lowercase hexadecimal rendering of a 32-bit
value, as printed by the cprintf 08x conversions of the monitor. -/
def hex8 (n : Nat) : String :=
  String.mk ((List.range 8).map (fun i => hexDigit (n / 16 ^ (7 - i) % 16)))

/-- Page size in bytes (inc/mmu.h PGSIZE). -/
def PGSIZE : Nat := 4096

/-- Clearing of the low 12 bits of a 32-bit value: the C expressions
va AND NOT 0xFFF of monitor.c lines 147-148 and the PTE_ADDR macro of
inc/mmu.h, written arithmetically over Nat. -/
def clearLow12 (x : Nat) : Nat := x / 4096 * 4096

/-- Page number of a physical address: the PGNUM macro of inc/mmu.h,
a right shift by PGSHIFT = 12. -/
def PGNUM (pa : Nat) : Nat := pa / 4096

/-- Modelled from the spec: the protection-flag bits of a page-table entry
(inc/mmu.h, which is not under src/) as the specification enumerates them:
Present, Writable, User, WriteThrough, CacheDisable, Accessed, Dirty,
PageSize, Global. -/
def PTE_P : Nat := 0x001

/-- Writable flag bit. -/
def PTE_W : Nat := 0x002

/-- User flag bit. -/
def PTE_U : Nat := 0x004

/-- WriteThrough flag bit. -/
def PTE_PWT : Nat := 0x008

/-- CacheDisable flag bit. -/
def PTE_PCD : Nat := 0x010

/-- Accessed flag bit. -/
def PTE_A : Nat := 0x020

/-- Dirty flag bit. -/
def PTE_D : Nat := 0x040

/-- PageSize flag bit. -/
def PTE_PS : Nat := 0x080

/-- Global flag bit. -/
def PTE_G : Nat := 0x100

/-- Test of one protection-flag bit: the C truth test of pte AND mask for a
power-of-two mask, read as one binary digit of the entry. -/
def testFlag (p mask : Nat) : Bool := p / mask % 2 == 1

/-- Result record of the debug-info resolver debuginfo_eip (kern/kdebug.c,
an external collaborator): best-effort symbol data for one instruction
address. -/
structure Eipdebuginfo where
  eip_file : String
  eip_line : Nat
  eip_fn_name : String
  eip_fn_namelen : Nat
  eip_fn_addr : Nat
  eip_fn_narg : Nat
deriving DecidableEq

/-- External state read by the monitor: the address-space accessor
page_table_entry (the page-table entry word for a virtual address, or none
when no translation structure is present), the total managed physical page
count npages, raw 32-bit memory words by byte address, the value the
frame-pointer register read yields, the debug-info resolver, and the
kerninfo printout supplied by linker symbols.  The monitor only reads this
state; it never mutates it. -/
structure KernelEnv where
  pte : Nat → Option Nat
  npages : Nat
  mem : Nat → Nat
  ebp0 : Nat
  debuginfo : Nat → Eipdebuginfo
  kerninfoLines : List String

/-- One stack frame as mon_backtrace reads it (monitor.c lines 71-77):
the frame pointer, word 1 as the return address, words 2 to 5 as the four
printed argument words, and the resolver record for the return address.
Together with the saved link (word 0, which becomes the next frame
pointer) these are exactly the six words read per frame. -/
structure BTFrame where
  ebp : Nat
  eip : Nat
  arg1 : Nat
  arg2 : Nat
  arg3 : Nat
  arg4 : Nat
  info : Eipdebuginfo
deriving DecidableEq

/-- The six-word read of one frame at a given frame pointer: ref i is the
32-bit word at byte address ebp + 4 * i. -/
def readFrame (env : KernelEnv) (ebp : Nat) : BTFrame :=
  { ebp := ebp, eip := env.mem (ebp + 4), arg1 := env.mem (ebp + 8),
    arg2 := env.mem (ebp + 12), arg3 := env.mem (ebp + 16), arg4 := env.mem (ebp + 20),
    info := env.debuginfo (env.mem (ebp + 4)) }

/-- Frame-pointer chain from a starting value: step k + 1 reads word 0 of
the frame at step k (monitor.c line 83). -/
def ebpChain (env : KernelEnv) (start : Nat) : Nat → Nat
  | 0 => start
  | k + 1 => env.mem (ebpChain env start k)

/-- Loop of mon_backtrace (monitor.c lines 69-84): while the frame pointer
is nonzero, read the frame and follow the saved link; the only stopping
condition of the C loop is a zero frame pointer.  Fuel counts iterations;
none means the loop did not finish within the given fuel. -/
def backtraceLoop (env : KernelEnv) : Nat → Nat → Option (List BTFrame)
  | 0, ebp => if 0 < ebp then none else some []
  | fuel + 1, ebp =>
    if 0 < ebp then
      match backtraceLoop env fuel (env.mem ebp) with
      | none => none
      | some rest => some (readFrame env ebp :: rest)
    else some []

/-- Frames emitted by the backtrace command starting from the
frame-pointer register value. -/
def mon_backtrace (env : KernelEnv) (fuel : Nat) : Option (List BTFrame) :=
  backtraceLoop env fuel env.ebp0

/-- 32-bit unsigned subtraction, for the printed offset of the return
address from the function start. -/
def u32sub (a b : Nat) : Nat := (a % 2 ^ 32 + 2 ^ 32 - b % 2 ^ 32) % 2 ^ 32

/-- Rendering of a 32-bit word by the signed d conversion of cprintf. -/
def i32str (n : Nat) : String :=
  if n < 2 ^ 31 then toString n else "-" ++ toString (2 ^ 32 - n % 2 ^ 32)

/-- Printed form of one stack frame (monitor.c lines 72-82): the ebp line
and the indented debug-info line (file, line, the function name as a
fixed-length character slice, offset from the function start, declared
argument count). -/
def frameLines (f : BTFrame) : List String :=
  ["ebp 0x" ++ hex8 f.ebp ++ "  eip 0x" ++ hex8 f.eip ++ "  args 0x" ++ hex8 f.arg1 ++
     " 0x" ++ hex8 f.arg2 ++ " 0x" ++ hex8 f.arg3 ++ " 0x" ++ hex8 f.arg4,
   "    " ++ f.info.eip_file ++ ":" ++ toString f.info.eip_line ++ ": " ++
     String.mk (f.info.eip_fn_name.toList.take f.info.eip_fn_namelen) ++ "+" ++
     i32str (u32sub f.eip f.info.eip_fn_addr) ++ " (" ++ toString f.info.eip_fn_narg ++ ")"]

/-- Modelled from the spec: cprintf_sep (kern/printf.c, not under src/)
prints the separator first when the flag is already set, then the item,
and sets the flag; show_page_details uses it to comma-join the mnemonic
list with no trailing comma. -/
def cprintf_sep (cs : Bool × String) (sep item : String) : Bool × String :=
  (true, cs.2 ++ (if cs.1 then sep else "") ++ item)

/-- Flag-mnemonic portion of a mapped line: the nine conditional
cprintf_sep calls of show_page_details (monitor.c lines 97-106), in source
order. -/
def pteFlagsString (p : Nat) : String :=
  let cs : Bool × String := (false, "")
  let cs := if testFlag p PTE_P then cprintf_sep cs (",") ("P") else cs
  let cs := if testFlag p PTE_W then cprintf_sep cs (",") ("W") else cs
  let cs := if testFlag p PTE_U then cprintf_sep cs (",") ("U") else cs
  let cs := if testFlag p PTE_PWT then cprintf_sep cs (",") ("PWT") else cs
  let cs := if testFlag p PTE_PCD then cprintf_sep cs (",") ("PCD") else cs
  let cs := if testFlag p PTE_A then cprintf_sep cs (",") ("A") else cs
  let cs := if testFlag p PTE_D then cprintf_sep cs (",") ("D") else cs
  let cs := if testFlag p PTE_PS then cprintf_sep cs (",") ("PS") else cs
  let cs := if testFlag p PTE_G then cprintf_sep cs (",") ("G") else cs
  cs.2

/-- One output line of the page-mapping inspector for a virtual address
(show_page_details, monitor.c lines 88-111); the sequential cprintf output
of the call collected into one string, the trailing newline being the line
boundary. -/
def show_page_details (env : KernelEnv) (va : Nat) : String :=
  match env.pte va with
  | none => "va 0x" ++ hex8 va ++ " -> unmapped"
  | some p =>
    "va 0x" ++ hex8 va ++ " -> pa 0x" ++ hex8 (clearLow12 p) ++ " [" ++
      pteFlagsString p ++ "]" ++
      (if PGNUM (clearLow12 p) ≥ env.npages then " (no physical memory present)" else "")

/-- Flag order fixed by the specification: Present, Writable, User,
WriteThrough, CacheDisable, Accessed, Dirty, PageSize, Global. -/
def pteFlagTable : List (Nat × String) :=
  [(PTE_P, "P"), (PTE_W, "W"), (PTE_U, "U"), (PTE_PWT, "PWT"), (PTE_PCD, "PCD"),
   (PTE_A, "A"), (PTE_D, "D"), (PTE_PS, "PS"), (PTE_G, "G")]

/-- Mnemonics of exactly the flags set in a translation, in the fixed
specification order. -/
def flagMnemonics (p : Nat) : List String :=
  (pteFlagTable.filter (fun f => testFlag p f.1)).map Prod.snd

/-- Comma join with no trailing comma, as the specification words it. -/
def commaJoin : List String → String
  | [] => ""
  | [x] => x
  | x :: y :: rest => x ++ "," ++ commaJoin (y :: rest)

/-- Value of one character as a digit of the given base, lowercase letters
standing for ten and up, as the digit loop of strtol accepts them. -/
def digitVal (base : Nat) (c : Char) : Option Nat :=
  if 48 ≤ c.toNat ∧ c.toNat ≤ 57 ∧ c.toNat - 48 < base then some (c.toNat - 48)
  else if 97 ≤ c.toNat ∧ c.toNat ≤ 122 ∧ c.toNat - 87 < base then some (c.toNat - 87)
  else none

/-- Accumulation of the digit string; none as soon as a character is not a
digit of the base, which mon_pagemappings rejects through its strfind
check (the parse must consume the whole argument). -/
def parseDigitsAux (base : Nat) : List Char → Nat → Option Nat
  | [], acc => some acc
  | c :: cs, acc =>
    match digitVal base c with
    | some d => parseDigitsAux base cs (acc * base + d)
    | none => none

/-- Modelled from the spec: the numeric argument parse of mon_pagemappings,
strtol with base 0 plus the strfind whole-string check (strtol and strfind
live in lib/string.c, not under src/).  Standard base prefixes: 0x means
hexadecimal, a leading 0 means octal, anything else decimal; the parse
fails unless the entire argument is consumed; the value is truncated to 32
bits as by the cast to uintptr_t. -/
def parseNumber (s : String) : Option Nat :=
  let p : Nat × List Char :=
    match s.toList with
    | '0' :: 'x' :: rest => (16, rest)
    | '0' :: rest => (8, '0' :: rest)
    | cs => (10, cs)
  match parseDigitsAux p.1 p.2 0 with
  | some v => some (v % 2 ^ 32)
  | none => none

/-- Outcome of one mon_pagemappings call: the returned status, the virtual
addresses handed to the address-space accessor in order (one
show_page_details call each), and the printed lines. -/
structure PMOut where
  status : Int
  queries : List Nat
  output : List String
deriving DecidableEq

/-- Iteration of mon_pagemappings (monitor.c lines 149-150): while the
32-bit va_start is at most va_end, show the page and advance by PGSIZE
with 32-bit wraparound.  Fuel counts loop iterations; none means the loop
did not finish within the given fuel. -/
def pagemappingsLoop (env : KernelEnv) : Nat → Nat → Nat → Option (List (Nat × String))
  | 0, _, _ => none
  | fuel + 1, va_s, va_e =>
    if va_s ≤ va_e then
      match pagemappingsLoop env fuel ((va_s + PGSIZE) % 2 ^ 32) va_e with
      | none => none
      | some rest => some ((va_s, show_page_details env va_s) :: rest)
    else some []

/-- Parse-failure message of mon_pagemappings for the first argument
(monitor.c line 132). -/
def pmErrFirst (a : String) : String :=
  "pagemappings: expecting number as first argument, could not parse \x27" ++ a ++ "\x27"

/-- Parse-failure message of mon_pagemappings for the second argument
(monitor.c line 142). -/
def pmErrSecond (a : String) : String :=
  "pagemappings: expecting number as second argument, could not parse \x27" ++ a ++ "\x27"

/-- Masking and iteration of mon_pagemappings after both addresses parsed
(monitor.c lines 147-151): clear the low 12 bits of both ends and run the
loop; on completion the status is 0. -/
def pmRun (env : KernelEnv) (fuel : Nat) (va1 va2 : Nat) : Option PMOut :=
  match pagemappingsLoop env fuel (clearLow12 va1) (clearLow12 va2) with
  | none => none
  | some pages => some ⟨0, pages.map Prod.fst, pages.map Prod.snd⟩

/-- The pagemappings command handler (mon_pagemappings, monitor.c lines
113-152): argc below 2 or above 3 and unparsable numeric arguments fail
with status -1 before any page is examined; the second address defaults to
the first when only one argument is given. -/
def mon_pagemappings (env : KernelEnv) (fuel : Nat) (argv : List String) : Option PMOut :=
  match argv with
  | [] => some ⟨-1, [], ["pagemappings expects at least one argument"]⟩
  | [_] => some ⟨-1, [], ["pagemappings expects at least one argument"]⟩
  | [_, a1] =>
    match parseNumber a1 with
    | none => some ⟨-1, [], [pmErrFirst a1]⟩
    | some va1 => pmRun env fuel va1 va1
  | [_, a1, a2] =>
    match parseNumber a1 with
    | none => some ⟨-1, [], [pmErrFirst a1]⟩
    | some va1 =>
      match parseNumber a2 with
      | none => some ⟨-1, [], [pmErrSecond a2]⟩
      | some va2 => pmRun env fuel va1 va2
  | _ => some ⟨-1, [], ["pagemappings expects at most two arguments"]⟩

/-- Specification-side page enumeration: every page-aligned address from s
to e inclusive, stepping by 4096, in increasing order; empty when s
exceeds e. -/
def pageRange (s e : Nat) : List Nat :=
  if s ≤ e then (List.range ((e - s) / 4096 + 1)).map (fun i => s + 4096 * i) else []

/-- Modelled from the spec: PTSIZE, the bytes mapped by one page-directory
entry (inc/memlayout.h and inc/mmu.h are not under src/). -/
def PTSIZE : Nat := 1024 * PGSIZE

/-- Modelled from the spec: the fixed memory-layout constants of
inc/memlayout.h (not under src/), the closed name set the constant
resolver covers: kernel and user boundary markers, stack regions, the
I/O hole and the page-table self-map window. -/
def KERNBASE : Nat := 0xF0000000

/-- Start of the I/O hole in physical memory. -/
def IOPHYSMEM : Nat := 0x0A0000

/-- End of the I/O hole in physical memory. -/
def EXTPHYSMEM : Nat := 0x100000

/-- Top of the kernel stack. -/
def KSTACKTOP : Nat := KERNBASE

/-- Size of the kernel stack. -/
def KSTKSIZE : Nat := 8 * PGSIZE

/-- Size of the kernel-stack guard gap. -/
def KSTKGAP : Nat := 8 * PGSIZE

/-- Top of the memory-mapped I/O region. -/
def MMIOLIM : Nat := KSTACKTOP - PTSIZE

/-- Base of the memory-mapped I/O region. -/
def MMIOBASE : Nat := MMIOLIM - PTSIZE

/-- Top of user-accessible address space. -/
def ULIM : Nat := MMIOBASE

/-- User read-only virtual page table window. -/
def UVPT : Nat := ULIM - PTSIZE

/-- User read-only copy of the page structures. -/
def UPAGES : Nat := UVPT - PTSIZE

/-- User read-only copy of the environment structures. -/
def UENVS : Nat := UPAGES - PTSIZE

/-- Top of normal user address space. -/
def UTOP : Nat := UENVS

/-- Top of the user exception stack. -/
def UXSTACKTOP : Nat := UTOP

/-- Top of the normal user stack, below one page of invalid memory. -/
def USTACKTOP : Nat := UTOP - 2 * PGSIZE

/-- Start of user program text. -/
def UTEXT : Nat := 2 * PTSIZE

/-- User scratch page mapping area. -/
def UTEMP : Nat := PTSIZE

/-- Page-fault handler scratch page. -/
def PFTEMP : Nat := UTEMP + PTSIZE - PGSIZE

/-- Location of the user-level STABS data structure. -/
def USTABDATA : Nat := PTSIZE / 2

/-- Name-to-address resolution over the fixed constant table
(get_va_ref_point, monitor.c lines 155-177): exact string comparison in
source order, none when no name matches. -/
def get_va_ref_point (name : String) : Option Nat :=
  if name = "KERNBASE" then some KERNBASE
  else if name = "IOPHYSMEM" then some IOPHYSMEM
  else if name = "EXTPHYSMEM" then some EXTPHYSMEM
  else if name = "KSTACKTOP" then some KSTACKTOP
  else if name = "KSTKSIZE" then some KSTKSIZE
  else if name = "KSTKGAP" then some KSTKGAP
  else if name = "MMIOLIM" then some MMIOLIM
  else if name = "MMIOBASE" then some MMIOBASE
  else if name = "ULIM" then some ULIM
  else if name = "UVPT" then some UVPT
  else if name = "UPAGES" then some UPAGES
  else if name = "UENVS" then some UENVS
  else if name = "UTOP" then some UTOP
  else if name = "UXSTACKTOP" then some UXSTACKTOP
  else if name = "USTACKTOP" then some USTACKTOP
  else if name = "UTEXT" then some UTEXT
  else if name = "UTEMP" then some UTEMP
  else if name = "PFTEMP" then some PFTEMP
  else if name = "USTABDATA" then some USTABDATA
  else none

/-- Result of one command handler as the dispatcher sees it: the signed
status (zero or positive continues the interpreter loop, negative
terminates it) and the printed lines. -/
structure CmdOut where
  status : Int
  output : List String
deriving DecidableEq

/-- The memconst command handler over an arbitrary lookup function, making
visible that a wrong argument count fails without consulting the table
(mon_memconst, monitor.c lines 179-197). -/
def mon_memconst_gen (lookup : String → Option Nat) (argv : List String) : CmdOut :=
  match argv with
  | [_, nm] =>
    match lookup nm with
    | some va => ⟨0, [nm ++ ": 0x" ++ hex8 va]⟩
    | none => ⟨-1, ["memconst: unknown memory constant \x27" ++ nm ++ "\x27"]⟩
  | _ => ⟨-1, ["memconst expects a single argument"]⟩

/-- The memconst command handler over the fixed constant table. -/
def mon_memconst (argv : List String) : CmdOut :=
  mon_memconst_gen get_va_ref_point argv

/-- Names and descriptions of the command registry (monitor.c lines
27-33), in registration order; kept separate from the handler table so
the help handler can read them. -/
def commandDescs : List (String × String) :=
  [("help", "Display this list of commands"),
   ("kerninfo", "Display information about the kernel"),
   ("backtrace", "Display a backtrace"),
   ("pagemappings", "Display page mappings for a range of pages"),
   ("memconst", "Converts a memory constant to address")]

/-- The help handler (mon_help, monitor.c lines 38-46): every registered
name and description, one line each, in registration order; status 0. -/
def mon_help_cmd (env : KernelEnv) (fuel : Nat) (argv : List String) : Option CmdOut :=
  some ⟨0, commandDescs.map (fun c => c.1 ++ " - " ++ c.2)⟩

/-- The kerninfo handler (mon_kerninfo, monitor.c lines 48-62): a static
printout of layout facts supplied by linker symbols, which are external to
the monitor; status 0. -/
def mon_kerninfo_cmd (env : KernelEnv) (fuel : Nat) (argv : List String) : Option CmdOut :=
  some ⟨0, env.kerninfoLines⟩

/-- The backtrace handler as the dispatcher invokes it (mon_backtrace,
monitor.c lines 64-86): the banner, then two lines per frame; status 0
when the walk reaches a zero frame pointer. -/
def mon_backtrace_cmd (env : KernelEnv) (fuel : Nat) (argv : List String) : Option CmdOut :=
  match backtraceLoop env fuel env.ebp0 with
  | none => none
  | some frames => some ⟨0, "Stack backtrace:" :: (frames.map frameLines).flatten⟩

/-- The pagemappings handler as the dispatcher invokes it, forgetting the
query accounting of PMOut. -/
def mon_pagemappings_cmd (env : KernelEnv) (fuel : Nat) (argv : List String) : Option CmdOut :=
  match mon_pagemappings env fuel argv with
  | none => none
  | some o => some ⟨o.status, o.output⟩

/-- The memconst handler as the dispatcher invokes it. -/
def mon_memconst_cmd (env : KernelEnv) (fuel : Nat) (argv : List String) : Option CmdOut :=
  some (mon_memconst argv)

/-- The command registry (monitor.c lines 27-33): name to handler, in
registration order. -/
def commands : List (String × (KernelEnv → Nat → List String → Option CmdOut)) :=
  [("help", mon_help_cmd), ("kerninfo", mon_kerninfo_cmd), ("backtrace", mon_backtrace_cmd),
   ("pagemappings", mon_pagemappings_cmd), ("memconst", mon_memconst_cmd)]

/-- One dispatch of runcmd (monitor.c lines 204-241): tokenize the line;
an aborted tokenization prints the too-many-arguments message and returns
0; an empty line returns 0 without any lookup; otherwise the first token
is compared against the registry in order and either the handler runs or
the unknown-command message prints with status 0. -/
def runcmd (env : KernelEnv) (fuel : Nat) (buf : String) : Option CmdOut :=
  match tokenize buf with
  | none => some ⟨0, ["Too many arguments (max 16)"]⟩
  | some [] => some ⟨0, []⟩
  | some (name :: args) =>
    match commands.find? (fun c => c.1 == name) with
    | some c => c.2 env fuel (name :: args)
    | none => some ⟨0, ["Unknown command \x27" ++ name ++ "\x27"]⟩

/-- The interpreter loop of monitor (monitor.c lines 254-259) against a
finite prefix of the line source: each line is dispatched in turn and the
loop stops early exactly when a dispatch returns a negative status.  The
result lists the outcome of every dispatched line; none propagates a
dispatch that did not finish within its fuel. -/
def monitorSession (env : KernelEnv) (fuel : Nat) : List String → Option (List CmdOut)
  | [] => some []
  | buf :: rest =>
    match runcmd env fuel buf with
    | none => none
    | some r =>
      if r.status < 0 then some [r]
      else
        match monitorSession env fuel rest with
        | none => none
        | some rs => some (r :: rs)

/-- Argument-validation failures of mon_pagemappings as the error taxonomy
of the specification lists them: wrong argument count or malformed numeric
literal. -/
def pmValidationFail : List String → Bool
  | [_, a1] => (parseNumber a1).isNone
  | [_, a1, a2] => (parseNumber a1).isNone || (parseNumber a2).isNone
  | argv => decide (argv.length < 2) || decide (3 < argv.length)

/-- Argument-validation failures of mon_memconst: wrong argument count or
unknown constant name. -/
def mcValidationFail : List String → Bool
  | [_, nm] => (get_va_ref_point nm).isNone
  | _ => true

/-- A trivial environment: no translations, no physical pages, zeroed
memory, a zero frame pointer and a blank resolver. -/
def env0 : KernelEnv :=
  { pte := fun _ => none, npages := 0, mem := fun _ => 0, ebp0 := 0,
    debuginfo := fun _ => ⟨"", 0, "", 0, 0, 0⟩, kerninfoLines := [] }

/-- An environment whose memory holds a three-frame chain: frame pointers
0x1000, 0x2000, 0x3000, then the zero terminator. -/
def env3 : KernelEnv :=
  { pte := fun _ => none, npages := 0,
    mem := fun a => if a = 0x1000 then 0x2000 else if a = 0x2000 then 0x3000 else 0,
    ebp0 := 0x1000, debuginfo := fun _ => ⟨"", 0, "", 0, 0, 0⟩, kerninfoLines := [] }

/-- An environment with one universal translation word 0x1A7, which sets
the Present, Writable, User, Accessed, PageSize and Global bits, and one
managed physical page. -/
def envC6 : KernelEnv :=
  { pte := fun _ => some 0x1A7, npages := 1, mem := fun _ => 0, ebp0 := 0,
    debuginfo := fun _ => ⟨"", 0, "", 0, 0, 0⟩, kerninfoLines := [] }

/-- An environment with one universal translation pointing at physical
frame 2 while only one physical page is managed, so the
no-physical-memory warning fires. -/
def envC7 : KernelEnv :=
  { pte := fun _ => some 0x2003, npages := 1, mem := fun _ => 0, ebp0 := 0,
    debuginfo := fun _ => ⟨"", 0, "", 0, 0, 0⟩, kerninfoLines := [] }

/-- One unfolding of the specification-side page enumeration. -/
theorem pageRange_cons (s e : Nat) (h : s ≤ e) :
    pageRange s e = s :: pageRange (s + 4096) e := by
  unfold pageRange
  rcases le_or_lt (s + 4096) e with h2 | h2
  · rw [if_pos h, if_pos h2]
    have hd : (e - s) / 4096 = (e - (s + 4096)) / 4096 + 1 := by
      have hes : e - s = (e - (s + 4096)) + 4096 := by omega
      rw [hes, Nat.add_div_right _ (by norm_num)]
    rw [hd, List.range_succ_eq_map]
    simp only [List.map_cons, List.map_map, Nat.mul_zero, Nat.add_zero]
    have hfun : ((fun i => s + 4096 * i) ∘ Nat.succ) = (fun i => s + 4096 + 4096 * i) := by
      funext i
      simp only [Function.comp_apply, Nat.succ_eq_add_one]
      ring
    rw [hfun]
  · rw [if_pos h, if_neg (by omega)]
    have hd : (e - s) / 4096 = 0 := Nat.div_eq_of_lt (by omega)
    rw [hd]
    simp [List.range_succ]

/-- With fuel exceeding the page count of the range, the pagemappings loop
finishes and visits exactly the specification-side enumeration, provided
the inclusive end is low enough that the 32-bit step never wraps. -/
theorem pagemappingsLoop_eq (env : KernelEnv) (e : Nat) (he : e + 4096 < 2 ^ 32) :
    ∀ fuel s, e - s + 4096 < 4096 * fuel →
      pagemappingsLoop env fuel s e =
        some ((pageRange s e).map (fun va => (va, show_page_details env va))) := by
  intro fuel
  induction fuel with
  | zero => intro s h; exact absurd h (by omega)
  | succ n ih =>
    intro s h
    by_cases hs : s ≤ e
    · have hlt : s + 4096 < 2 ^ 32 := by omega
      have hm : (s + PGSIZE) % 2 ^ 32 = s + 4096 := by
        unfold PGSIZE
        exact Nat.mod_eq_of_lt hlt
      simp only [pagemappingsLoop, if_pos hs, hm]
      rw [pageRange_cons s e hs]
      by_cases hs2 : s + 4096 ≤ e
      · rw [ih (s + 4096) (by omega)]
        simp
      · obtain ⟨m, rfl⟩ := Nat.exists_eq_succ_of_ne_zero (show n ≠ 0 by omega)
        have hnil : pagemappingsLoop env (m + 1) (s + 4096) e = some [] := by
          simp only [pagemappingsLoop, if_neg hs2]
        rw [hnil]
        have hr : pageRange (s + 4096) e = [] := by
          simp [pageRange, hs2]
        rw [hr]
        simp
    · simp only [pagemappingsLoop, if_neg hs]
      simp [pageRange, hs]

/-- When the masked inclusive end is the top page 0xFFFFF000, the 32-bit
increment wraps past it and the loop condition never fails: no amount of
fuel finishes the loop. -/
theorem pagemappingsLoop_top_none (env : KernelEnv) :
    ∀ fuel s, s % 4096 = 0 → s < 2 ^ 32 →
      pagemappingsLoop env fuel s 0xFFFFF000 = none := by
  intro fuel
  induction fuel with
  | zero => intro s h1 h2; rfl
  | succ n ih =>
    intro s h1 h2
    have hs : s ≤ 0xFFFFF000 := by omega
    have h1m : (s + PGSIZE) % 2 ^ 32 % 4096 = 0 := by
      unfold PGSIZE
      rw [Nat.mod_mod_of_dvd _ (by norm_num)]
      omega
    have h2m : (s + PGSIZE) % 2 ^ 32 < 2 ^ 32 := by unfold PGSIZE; omega
    simp only [pagemappingsLoop, if_pos hs, ih ((s + PGSIZE) % 2 ^ 32) h1m h2m]

/-- A parse failure of the first argument fails before the loop. -/
theorem mon_pagemappings_parse1_fail (env : KernelEnv) (fuel : Nat) (a0 a1 : String)
    (h : parseNumber a1 = none) :
    mon_pagemappings env fuel [a0, a1] = some ⟨-1, [], [pmErrFirst a1]⟩ := by
  simp [mon_pagemappings, h]

/-- A parse failure of the first of two arguments fails before the loop. -/
theorem mon_pagemappings_parse1_fail2 (env : KernelEnv) (fuel : Nat) (a0 a1 a2 : String)
    (h : parseNumber a1 = none) :
    mon_pagemappings env fuel [a0, a1, a2] = some ⟨-1, [], [pmErrFirst a1]⟩ := by
  simp [mon_pagemappings, h]

/-- A parse failure of the second argument, after the first parsed, fails
before the loop. -/
theorem mon_pagemappings_parse2_fail (env : KernelEnv) (fuel : Nat) (a0 a1 a2 : String)
    (va1 : Nat) (h1 : parseNumber a1 = some va1) (h2 : parseNumber a2 = none) :
    mon_pagemappings env fuel [a0, a1, a2] = some ⟨-1, [], [pmErrSecond a2]⟩ := by
  simp [mon_pagemappings, h1, h2, pmRun]

/-- Fewer than two argv entries fail with the at-least-one message. -/
theorem mon_pagemappings_argc_low (env : KernelEnv) (fuel : Nat) :
    ∀ argv : List String, argv.length < 2 →
      mon_pagemappings env fuel argv =
        some ⟨-1, [], ["pagemappings expects at least one argument"]⟩ := by
  intro argv h
  rcases argv with _ | ⟨a0, _ | ⟨a1, t⟩⟩
  · rfl
  · rfl
  · simp only [List.length_cons] at h
    omega

/-- More than three argv entries fail with the at-most-two message. -/
theorem mon_pagemappings_argc_high (env : KernelEnv) (fuel : Nat) :
    ∀ argv : List String, 3 < argv.length →
      mon_pagemappings env fuel argv =
        some ⟨-1, [], ["pagemappings expects at most two arguments"]⟩ := by
  intro argv h
  rcases argv with _ | ⟨a0, _ | ⟨a1, _ | ⟨a2, _ | ⟨a3, t⟩⟩⟩⟩
  · simp only [List.length_nil] at h
    omega
  · simp only [List.length_cons, List.length_nil] at h
    omega
  · simp only [List.length_cons, List.length_nil] at h
    omega
  · simp only [List.length_cons, List.length_nil] at h
    omega
  · rfl

/-- When the masked end is below the top page and the fuel exceeds the
maximal page count, the masked run of mon_pagemappings completes and
reports exactly the specification-side enumeration together with its
show_page_details lines. -/
theorem pmRun_eq (env : KernelEnv) (fuel : Nat) (va1 va2 : Nat) (hf : 2 ^ 20 < fuel)
    (hm : clearLow12 va2 < 0xFFFFF000) :
    pmRun env fuel va1 va2 =
      some ⟨0, pageRange (clearLow12 va1) (clearLow12 va2),
            (pageRange (clearLow12 va1) (clearLow12 va2)).map (show_page_details env)⟩ := by
  have he : clearLow12 va2 + 4096 < 2 ^ 32 := by omega
  have hb : clearLow12 va2 - clearLow12 va1 + 4096 < 4096 * fuel := by
    have h1 : 4096 * (2 ^ 20 + 1) ≤ 4096 * fuel := Nat.mul_le_mul_left _ (by omega)
    omega
  unfold pmRun
  rw [pagemappingsLoop_eq env (clearLow12 va2) he fuel (clearLow12 va1) hb]
  simp [List.map_map, Function.comp_def]

/-- C1: for every successfully parsed pair of 32-bit addresses, both are
masked by clearing their low 12 bits and the inspector queries the
accessor exactly once per page-aligned address of the inclusive masked
range, stepping by 4096 in increasing order, with an empty range (and no
error, status 0) when the masked start exceeds the masked end; the end
defaults to the start with one argument.  This holds whenever the masked
end lies below the top page 0xFFFFF000; at a masked end of exactly
0xFFFFF000 the 32-bit increment wraps past the bound, the loop condition
never fails, and no amount of fuel finishes the command: the code loops
forever and re-queries pages instead of querying each exactly once, a
divergence between the code and the claim. -/
theorem c1_pagemappings_range :
    (∀ env fuel s1 s2 va1 va2, 2 ^ 20 < fuel →
        parseNumber s1 = some va1 → parseNumber s2 = some va2 →
        clearLow12 va2 < 0xFFFFF000 →
        mon_pagemappings env fuel ["pagemappings", s1, s2] =
          some ⟨0, pageRange (clearLow12 va1) (clearLow12 va2),
                (pageRange (clearLow12 va1) (clearLow12 va2)).map (show_page_details env)⟩)
    ∧ (∀ env fuel s1 va1, 2 ^ 20 < fuel →
        parseNumber s1 = some va1 → clearLow12 va1 < 0xFFFFF000 →
        mon_pagemappings env fuel ["pagemappings", s1] =
          some ⟨0, pageRange (clearLow12 va1) (clearLow12 va1),
                (pageRange (clearLow12 va1) (clearLow12 va1)).map (show_page_details env)⟩)
    ∧ (∀ env fuel, mon_pagemappings env fuel ["pagemappings", "0xfffff000"] = none) := by
  refine ⟨?_, ?_, ?_⟩
  · intro env fuel s1 s2 va1 va2 hf h1 h2 hm
    simp only [mon_pagemappings, h1, h2]
    exact pmRun_eq env fuel va1 va2 hf hm
  · intro env fuel s1 va1 hf h1 hm
    simp only [mon_pagemappings, h1]
    exact pmRun_eq env fuel va1 va1 hf hm
  · intro env fuel
    have hp : parseNumber ("0xfffff000") = some 0xFFFFF000 := by rfl
    simp only [mon_pagemappings, hp]
    unfold pmRun
    have hc : clearLow12 0xFFFFF000 = 0xFFFFF000 := by rfl
    rw [hc, pagemappingsLoop_top_none env fuel 0xFFFFF000 (by norm_num) (by norm_num)]

/-- C1 witness: the range 0x1000 to 0x3000 against the trivial
environment, with fuel past the page count. -/
theorem c1_pagemappings_range_witness :
    mon_pagemappings env0 (2 ^ 20 + 1) ["pagemappings", "0x1000", "0x3000"] =
      some ⟨0, pageRange (clearLow12 4096) (clearLow12 12288),
            (pageRange (clearLow12 4096) (clearLow12 12288)).map (show_page_details env0)⟩ :=
  c1_pagemappings_range.1 env0 (2 ^ 20 + 1) ("0x1000") ("0x3000") 4096 12288
    (by norm_num) rfl rfl (by decide)

/-- C10: whenever a pagemappings argument fails numeric parsing, the
handler returns the failure status -1 before any accessor query, so zero
pages are examined and zero per-page lines are printed: for a parse
failure of the only argument, of the first of two, and of the second
after the first parsed successfully. -/
theorem c10_parse_failure_no_queries :
    (∀ env fuel s1, parseNumber s1 = none →
        mon_pagemappings env fuel ["pagemappings", s1] =
          some ⟨-1, [], [pmErrFirst s1]⟩)
    ∧ (∀ env fuel s1 s2, parseNumber s1 = none →
        mon_pagemappings env fuel ["pagemappings", s1, s2] =
          some ⟨-1, [], [pmErrFirst s1]⟩)
    ∧ (∀ env fuel s1 va1 s2, parseNumber s1 = some va1 → parseNumber s2 = none →
        mon_pagemappings env fuel ["pagemappings", s1, s2] =
          some ⟨-1, [], [pmErrSecond s2]⟩) :=
  ⟨fun env fuel s1 h => mon_pagemappings_parse1_fail env fuel _ s1 h,
   fun env fuel s1 s2 h => mon_pagemappings_parse1_fail2 env fuel _ s1 s2 h,
   fun env fuel s1 va1 s2 h1 h2 => mon_pagemappings_parse2_fail env fuel _ s1 s2 va1 h1 h2⟩

/-- C10 witness: a second-argument parse failure after a good first
argument, against the trivial environment with no fuel at all. -/
theorem c10_parse_failure_no_queries_witness :
    mon_pagemappings env0 0 ["pagemappings", "0x1000", "12z"] =
      some ⟨-1, [], [pmErrSecond ("12z")]⟩ :=
  c10_parse_failure_no_queries.2.2 env0 0 ("0x1000") 4096 ("12z") rfl rfl

/-- Shifting the frame-pointer chain by one link. -/
theorem ebpChain_shift (env : KernelEnv) (start : Nat) :
    ∀ k, ebpChain env (env.mem start) k = ebpChain env start (k + 1) := by
  intro k
  induction k with
  | zero => rfl
  | succ k ih => simp only [ebpChain, ih]

/-- Down a chain whose link reaches zero after exactly n frames, any fuel
of at least n finishes the backtrace loop with exactly the n frames read
at the successive frame pointers. -/
theorem backtraceLoop_eq (env : KernelEnv) :
    ∀ n start, ebpChain env start n = 0 → (∀ k, k < n → ebpChain env start k ≠ 0) →
      ∀ fuel, n ≤ fuel →
        backtraceLoop env fuel start =
          some ((List.range n).map (fun k => readFrame env (ebpChain env start k))) := by
  intro n
  induction n with
  | zero =>
    intro start h0 hk fuel hf
    have hs : start = 0 := h0
    cases fuel with
    | zero => simp [backtraceLoop, hs]
    | succ m => simp [backtraceLoop, hs]
  | succ n ih =>
    intro start h0 hk fuel hf
    obtain ⟨m, rfl⟩ := Nat.exists_eq_succ_of_ne_zero (show fuel ≠ 0 by omega)
    have hstart : 0 < start := Nat.pos_of_ne_zero (hk 0 (Nat.succ_pos n))
    have h0s : ebpChain env (env.mem start) n = 0 := by
      rw [ebpChain_shift]
      exact h0
    have hks : ∀ k, k < n → ebpChain env (env.mem start) k ≠ 0 := by
      intro k hkn
      rw [ebpChain_shift]
      exact hk (k + 1) (by omega)
    simp only [backtraceLoop, if_pos hstart]
    rw [ih (env.mem start) h0s hks m (by omega)]
    have hfun : (fun k => readFrame env (ebpChain env (env.mem start) k))
        = ((fun k => readFrame env (ebpChain env start k)) ∘ Nat.succ) := by
      funext k
      simp only [Function.comp_apply, ebpChain_shift]
    rw [hfun, List.range_succ_eq_map, List.map_cons, List.map_map]
    rfl

/-- Whenever the backtrace loop finishes, the chain reached zero right
after the emitted frames and nowhere earlier: a zero frame pointer is the
only stopping condition. -/
theorem backtraceLoop_some_chain (env : KernelEnv) :
    ∀ fuel start frames, backtraceLoop env fuel start = some frames →
      ebpChain env start frames.length = 0 ∧
        ∀ k, k < frames.length → ebpChain env start k ≠ 0 := by
  intro fuel
  induction fuel with
  | zero =>
    intro start frames h
    by_cases hs : 0 < start
    · simp [backtraceLoop, hs] at h
    · simp [backtraceLoop, hs] at h
      subst h
      refine ⟨by simpa [ebpChain] using (by omega : start = 0), ?_⟩
      intro k hk
      simp at hk
  | succ m ih =>
    intro start frames h
    by_cases hs : 0 < start
    · simp only [backtraceLoop, if_pos hs] at h
      cases hr : backtraceLoop env m (env.mem start) with
      | none =>
        rw [hr] at h
        simp at h
      | some rest =>
        rw [hr] at h
        simp only [Option.some.injEq] at h
        subst h
        obtain ⟨h1, h2⟩ := ih (env.mem start) rest hr
        refine ⟨?_, ?_⟩
        · simpa [List.length_cons, ← ebpChain_shift] using h1
        · intro k hk
          cases k with
          | zero =>
            simp only [ebpChain]
            omega
          | succ k =>
            rw [← ebpChain_shift]
            exact h2 k (by simpa [List.length_cons] using hk)
    · simp [backtraceLoop, hs] at h
      subst h
      refine ⟨by simpa [ebpChain] using (by omega : start = 0), ?_⟩
      intro k hk
      simp at hk

/-- C2: for a frame-pointer chain whose saved-link words reach zero after
exactly n frames, mon_backtrace emits exactly n frames, the k-th being the
six-word read at the k-th chain value (frame pointer, word 1 as return
address, words 2 to 5 as the four argument words), and then halts, with no
constraint at all on where the frame pointers lie; conversely, whenever
the walk stops it is because the chain reached a zero frame pointer right
after the emitted frames, that being the only stopping condition of the
loop. -/
theorem c2_backtrace_frames :
    (∀ env n, ebpChain env env.ebp0 n = 0 → (∀ k, k < n → ebpChain env env.ebp0 k ≠ 0) →
        ∀ fuel, n ≤ fuel →
          mon_backtrace env fuel =
            some ((List.range n).map (fun k => readFrame env (ebpChain env env.ebp0 k))))
    ∧ (∀ env fuel frames, mon_backtrace env fuel = some frames →
        ebpChain env env.ebp0 frames.length = 0 ∧
          ∀ k, k < frames.length → ebpChain env env.ebp0 k ≠ 0) :=
  ⟨fun env n h0 hk fuel hf => backtraceLoop_eq env n env.ebp0 h0 hk fuel hf,
   fun env fuel frames h => backtraceLoop_some_chain env fuel env.ebp0 frames h⟩

/-- C2 witness: the synthetic three-frame chain 0x1000, 0x2000, 0x3000
ending in a zero link emits exactly three frames within fuel 3. -/
theorem c2_backtrace_frames_witness :
    mon_backtrace env3 3 =
      some ((List.range 3).map (fun k => readFrame env3 (ebpChain env3 env3.ebp0 k))) :=
  c2_backtrace_frames.1 env3 3 (by decide) (by decide) 3 (by norm_num)

/-- Runs of the empty line. -/
theorem runs_nil : runs [] = [] := by
  rw [runs]
  rfl

/-- A leading whitespace character does not change the runs. -/
theorem runs_cons_ws (c : Char) (cs : List Char) (h : isWS c = true) :
    runs (c :: cs) = runs cs := by
  conv_lhs => rw [runs]
  conv_rhs => rw [runs]
  rw [List.dropWhile_cons, if_pos h]

/-- A leading non-whitespace character starts the first run. -/
theorem runs_cons_not_ws (c : Char) (cs : List Char) (h : isWS c = false) :
    runs (c :: cs) =
      (c :: cs.takeWhile (fun x => !isWS x)) :: runs (cs.dropWhile (fun x => !isWS x)) := by
  conv_lhs => rw [runs]
  rw [List.dropWhile_cons, if_neg (by simp [h])]

/-- Unfolding of runsE at two leading non-whitespace characters. -/
theorem runsE_cons_cons_not_ws (c c2 : Char) (cs2 : List Char)
    (h1 : isWS c = false) (h2 : isWS c2 = false) :
    runsE (c :: c2 :: cs2) =
      match runsE (c2 :: cs2) with
      | [] => [[c]]
      | r :: rs => (c :: r) :: rs := by
  simp [runsE, h1, h2]

/-- The specification-side runs agree with their structurally recursive
twin, so concrete lines can be evaluated. -/
theorem runs_eq_runsE : ∀ cs, runs cs = runsE cs := by
  intro cs
  induction cs with
  | nil =>
    rw [runs_nil]
    rfl
  | cons c cs ih =>
    by_cases hc : isWS c
    · rw [runs_cons_ws c cs hc]
      simp only [runsE, if_pos hc]
      exact ih
    · have hc' : isWS c = false := by simpa using hc
      rw [runs_cons_not_ws c cs hc']
      cases cs with
      | nil => simp [runsE, hc', runs_nil]
      | cons c2 cs2 =>
        by_cases hc2 : isWS c2
        · have ht : (c2 :: cs2).takeWhile (fun x => !isWS x) = [] := by
            simp [List.takeWhile_cons, hc2]
          have hd : (c2 :: cs2).dropWhile (fun x => !isWS x) = c2 :: cs2 := by
            simp [List.dropWhile_cons, hc2]
          rw [ht, hd, ih]
          simp [runsE, hc', hc2]
        · have hc2' : isWS c2 = false := by simpa using hc2
          have ht : (c2 :: cs2).takeWhile (fun x => !isWS x)
              = c2 :: cs2.takeWhile (fun x => !isWS x) := by
            simp [List.takeWhile_cons, hc2']
          have hd : (c2 :: cs2).dropWhile (fun x => !isWS x)
              = cs2.dropWhile (fun x => !isWS x) := by
            simp [List.dropWhile_cons, hc2']
          rw [ht, hd]
          have he : runsE (c2 :: cs2) =
              (c2 :: cs2.takeWhile (fun x => !isWS x))
                :: runs (cs2.dropWhile (fun x => !isWS x)) := by
            rw [← ih, runs_cons_not_ws c2 cs2 hc2']
          rw [runsE_cons_cons_not_ws c c2 cs2 hc' hc2', he]

/-- From any state within the 15-argument limit, the tokenizer finishes
and produces exactly the glued runs, one string each, after the arguments
already accumulated. -/
theorem tokenizeAux_eq_runs :
    ∀ cs cur acc, acc.length + (glueRuns cur cs).length ≤ 15 →
      tokenizeAux cs cur acc =
        some (acc.reverse ++ (glueRuns cur cs).map (fun r => String.mk r)) := by
  intro cs
  induction cs with
  | nil =>
    intro cur acc h
    cases cur with
    | nil => simp [tokenizeAux, glueRuns, runs_nil]
    | cons d ds => simp [tokenizeAux, glueRuns, runs_nil, List.reverse_cons]
  | cons c cs ih =>
    intro cur acc h
    cases cur with
    | nil =>
      by_cases hws : isWS c
      · have hstep : tokenizeAux (c :: cs) [] acc = tokenizeAux cs [] acc := by
          simp [tokenizeAux, hws]
        have hg : glueRuns [] (c :: cs) = glueRuns [] cs := by
          simp only [glueRuns]
          exact runs_cons_ws c cs hws
        rw [hg] at h
        rw [hstep, hg]
        exact ih [] acc h
      · have hws' : isWS c = false := by simpa using hws
        have hrun : glueRuns [] (c :: cs) = glueRuns [c] cs := by
          simp only [glueRuns]
          rw [runs_cons_not_ws c cs hws']
          rfl
        rw [hrun] at h
        have hne : acc.length ≠ 15 := by
          simp only [glueRuns, List.length_cons] at h
          omega
        have hstep : tokenizeAux (c :: cs) [] acc = tokenizeAux cs [c] acc := by
          simp [tokenizeAux, hws', MAXARGS, hne]
        rw [hstep, hrun]
        exact ih [c] acc h
    | cons d ds =>
      by_cases hws : isWS c
      · have hstep : tokenizeAux (c :: cs) (d :: ds) acc
            = tokenizeAux cs [] ((String.mk (d :: ds).reverse) :: acc) := by
          simp [tokenizeAux, hws]
        have ht : (c :: cs).takeWhile (fun x => !isWS x) = [] := by
          simp [List.takeWhile_cons, hws]
        have hd : (c :: cs).dropWhile (fun x => !isWS x) = c :: cs := by
          simp [List.dropWhile_cons, hws]
        have hg : glueRuns (d :: ds) (c :: cs) = (d :: ds).reverse :: runs cs := by
          simp only [glueRuns, ht, hd, List.append_nil]
          rw [runs_cons_ws c cs hws]
        rw [hg] at h
        rw [hstep, hg]
        have hb : ((String.mk (d :: ds).reverse) :: acc).length + (glueRuns [] cs).length ≤ 15 := by
          simp only [glueRuns, List.length_cons] at h ⊢
          omega
        rw [ih [] ((String.mk (d :: ds).reverse) :: acc) hb]
        simp [glueRuns, List.reverse_cons, List.append_assoc]
      · have hws' : isWS c = false := by simpa using hws
        have hstep : tokenizeAux (c :: cs) (d :: ds) acc = tokenizeAux cs (c :: d :: ds) acc := by
          simp [tokenizeAux, hws']
        have hg : glueRuns (d :: ds) (c :: cs) = glueRuns (c :: d :: ds) cs := by
          simp only [glueRuns, List.takeWhile_cons, List.dropWhile_cons, hws']
          simp [List.reverse_cons, List.append_assoc]
        rw [hg] at h
        rw [hstep, hg]
        exact ih (c :: d :: ds) acc h

/-- From any reachable state, once the glued runs push the total past 15
arguments the tokenizer aborts: the 16th token is never saved. -/
theorem tokenizeAux_none :
    ∀ cs cur acc, (cur = [] → acc.length ≤ 15) → (cur ≠ [] → acc.length ≤ 14) →
      15 < acc.length + (glueRuns cur cs).length →
      tokenizeAux cs cur acc = none := by
  intro cs
  induction cs with
  | nil =>
    intro cur acc hinv0 hinv1 h
    cases cur with
    | nil =>
      simp only [glueRuns, runs_nil, List.length_nil] at h
      have := hinv0 rfl
      omega
    | cons d ds =>
      simp only [glueRuns, List.takeWhile_nil, List.dropWhile_nil, runs_nil,
        List.length_cons, List.length_nil] at h
      have := hinv1 (by simp)
      omega
  | cons c cs ih =>
    intro cur acc hinv0 hinv1 h
    cases cur with
    | nil =>
      by_cases hws : isWS c
      · have hstep : tokenizeAux (c :: cs) [] acc = tokenizeAux cs [] acc := by
          simp [tokenizeAux, hws]
        have hg : glueRuns [] (c :: cs) = glueRuns [] cs := by
          simp only [glueRuns]
          exact runs_cons_ws c cs hws
        rw [hg] at h
        rw [hstep]
        exact ih [] acc hinv0 hinv1 h
      · have hws' : isWS c = false := by simpa using hws
        by_cases hacc : acc.length = 15
        · simp [tokenizeAux, hws', MAXARGS, hacc]
        · have hrun : glueRuns [] (c :: cs) = glueRuns [c] cs := by
            simp only [glueRuns]
            rw [runs_cons_not_ws c cs hws']
            rfl
          rw [hrun] at h
          have hstep : tokenizeAux (c :: cs) [] acc = tokenizeAux cs [c] acc := by
            simp [tokenizeAux, hws', MAXARGS, hacc]
          rw [hstep]
          refine ih [c] acc (by simp) ?_ h
          intro hne
          have := hinv0 rfl
          omega
    | cons d ds =>
      by_cases hws : isWS c
      · have hstep : tokenizeAux (c :: cs) (d :: ds) acc
            = tokenizeAux cs [] ((String.mk (d :: ds).reverse) :: acc) := by
          simp [tokenizeAux, hws]
        have ht : (c :: cs).takeWhile (fun x => !isWS x) = [] := by
          simp [List.takeWhile_cons, hws]
        have hd : (c :: cs).dropWhile (fun x => !isWS x) = c :: cs := by
          simp [List.dropWhile_cons, hws]
        have hg : glueRuns (d :: ds) (c :: cs) = (d :: ds).reverse :: runs cs := by
          simp only [glueRuns, ht, hd, List.append_nil]
          rw [runs_cons_ws c cs hws]
        rw [hg] at h
        rw [hstep]
        have hacc : acc.length ≤ 14 := hinv1 (by simp)
        refine ih [] ((String.mk (d :: ds).reverse) :: acc) (fun _ => by simp; omega)
          (fun hne => absurd rfl hne) ?_
        simp only [glueRuns, List.length_cons] at h ⊢
        omega
      · have hws' : isWS c = false := by simpa using hws
        have hstep : tokenizeAux (c :: cs) (d :: ds) acc = tokenizeAux cs (c :: d :: ds) acc := by
          simp [tokenizeAux, hws']
        have hg : glueRuns (d :: ds) (c :: cs) = glueRuns (c :: d :: ds) cs := by
          simp only [glueRuns, List.takeWhile_cons, List.dropWhile_cons, hws']
          simp [List.reverse_cons, List.append_assoc]
        rw [hg] at h
        rw [hstep]
        exact ih (c :: d :: ds) acc (by simp) (fun _ => hinv1 (by simp)) h

/-- C4: the tokenizer yields exactly the maximal non-whitespace runs of
the line, verbatim and in left-to-right order (so the argument count is
the number of runs), whenever there are at most 15 runs; and an
all-whitespace line yields zero arguments and runcmd treats it as a no-op
with continue status 0 against every environment, performing no registry
lookup. -/
theorem c4_tokenizer_exact_runs :
    (∀ buf : String, (runs buf.toList).length ≤ 15 →
        tokenize buf = some ((runs buf.toList).map (fun r => String.mk r)))
    ∧ (∀ (buf : String) (env : KernelEnv) (fuel : Nat), runs buf.toList = [] →
        runcmd env fuel buf = some ⟨0, []⟩) := by
  constructor
  · intro buf h
    have hx := tokenizeAux_eq_runs buf.toList [] [] (by simpa [glueRuns] using h)
    simpa [tokenize, glueRuns] using hx
  · intro buf env fuel h
    have h2 : runs buf.data = [] := h
    have htok : tokenize buf = some [] := by
      have hx := tokenizeAux_eq_runs buf.toList [] [] (by simp [glueRuns, h, h2])
      simpa [tokenize, glueRuns, h, h2] using hx
    simp [runcmd, htok]

/-- C4 witness: a line of two runs among whitespace, and an
all-whitespace no-op line. -/
theorem c4_tokenizer_exact_runs_witness :
    tokenize ("  help   me  ")
        = some ((runs ("  help   me  ").toList).map (fun r => String.mk r))
    ∧ runcmd env0 0 ("   ") = some ⟨0, []⟩ :=
  ⟨c4_tokenizer_exact_runs.1 ("  help   me  ") (by rw [runs_eq_runsE]; decide),
   c4_tokenizer_exact_runs.2 ("   ") env0 0 (by rw [runs_eq_runsE]; decide)⟩

/-- C5: a line with more than 15 non-whitespace tokens aborts
tokenization as the 16th token is met (it is never saved), prints the
too-many-arguments message, looks up and executes no command (the result
is the same against every environment and fuel), and returns the continue
status 0, so the interpreter loop goes on. -/
theorem c5_too_many_arguments :
    ∀ buf : String, 15 < (runs buf.toList).length →
      ∀ env fuel, runcmd env fuel buf = some ⟨0, ["Too many arguments (max 16)"]⟩ := by
  intro buf h env fuel
  have htok : tokenize buf = none := by
    have hx := tokenizeAux_none buf.toList [] [] (fun _ => by simp)
      (fun hne => absurd rfl hne) (by simpa [glueRuns] using h)
    simpa [tokenize] using hx
  simp [runcmd, htok]

/-- C5 witness: sixteen one-character tokens. -/
theorem c5_too_many_arguments_witness :
    runcmd env0 0 ("a b c d e f g h i j k l m n o p") =
      some ⟨0, ["Too many arguments (max 16)"]⟩ :=
  c5_too_many_arguments ("a b c d e f g h i j k l m n o p")
    (by rw [runs_eq_runsE]; decide) env0 0

/-- C9: when the first token of a line matches no registered command name
under exact case-sensitive string comparison, runcmd prints the
unknown-command message with that token substituted, executes no handler
(the result does not depend on the environment or the fuel), and returns
status 0, so the interpreter loop does not terminate. -/
theorem c9_unknown_command :
    ∀ (buf name : String) (args : List String),
      tokenize buf = some (name :: args) →
      name ∉ commands.map Prod.fst →
      ∀ env fuel,
        runcmd env fuel buf = some ⟨0, ["Unknown command \x27" ++ name ++ "\x27"]⟩ := by
  intro buf name args htok hn env fuel
  have hf : commands.find? (fun c => c.1 == name) = none := by
    rw [List.find?_eq_none]
    intro c hc hbeq
    exact hn (List.mem_map.mpr ⟨c, hc, by simpa using hbeq⟩)
  simp [runcmd, htok, hf]

/-- C9 witness: the unregistered name foo with one extra token. -/
theorem c9_unknown_command_witness :
    runcmd env0 0 ("foo bar") = some ⟨0, ["Unknown command \x27foo\x27"]⟩ :=
  c9_unknown_command ("foo bar") ("foo") (["bar"]) rfl (by decide) env0 0

/-- The nine conditional cprintf_sep calls produce exactly the comma join
of the mnemonics of the set flags, in the fixed order of the table. -/
theorem pteFlagsString_eq_commaJoin (p : Nat) :
    pteFlagsString p = commaJoin (flagMnemonics p) := by
  simp only [pteFlagsString, flagMnemonics, pteFlagTable, cprintf_sep,
    List.filter_cons, List.filter_nil]
  generalize testFlag p PTE_P = b1
  generalize testFlag p PTE_W = b2
  generalize testFlag p PTE_U = b3
  generalize testFlag p PTE_PWT = b4
  generalize testFlag p PTE_PCD = b5
  generalize testFlag p PTE_A = b6
  generalize testFlag p PTE_D = b7
  generalize testFlag p PTE_PS = b8
  generalize testFlag p PTE_G = b9
  cases b1 <;> cases b2 <;> cases b3 <;> cases b4 <;> cases b5 <;>
    cases b6 <;> cases b7 <;> cases b8 <;> cases b9 <;> rfl

/-- C6: for every page with a translation present, the printed line is
the va/pa header followed, inside brackets, by exactly the mnemonics of
the set flags in the fixed order P, W, U, PWT, PCD, A, D, PS, G, joined
by commas with no trailing comma (then the no-physical-memory warning
exactly when it applies). -/
theorem c6_flag_list :
    ∀ env va p, env.pte va = some p →
      show_page_details env va =
        "va 0x" ++ hex8 va ++ " -> pa 0x" ++ hex8 (clearLow12 p) ++ " [" ++
          commaJoin (flagMnemonics p) ++ "]" ++
          (if PGNUM (clearLow12 p) ≥ env.npages then " (no physical memory present)"
            else "") := by
  intro env va p h
  simp only [show_page_details, h, pteFlagsString_eq_commaJoin]

/-- C6 witness: the entry word 0x1A7 lists P, W, U, A, PS, G. -/
theorem c6_flag_list_witness :
    show_page_details envC6 0 =
      "va 0x" ++ hex8 0 ++ " -> pa 0x" ++ hex8 (clearLow12 0x1A7) ++ " [" ++
        commaJoin (flagMnemonics 0x1A7) ++ "]" ++
        (if PGNUM (clearLow12 0x1A7) ≥ envC6.npages then " (no physical memory present)"
          else "") :=
  c6_flag_list envC6 0 0x1A7 rfl

/-- C7: a page with no translation prints exactly the unmapped line, and
a translation whose physical frame number is at least the managed page
count gets the no-physical-memory suffix appended to its line. -/
theorem c7_unmapped_and_missing_memory :
    ∀ env va,
      (env.pte va = none →
        show_page_details env va = "va 0x" ++ hex8 va ++ " -> unmapped")
      ∧ (∀ p, env.pte va = some p → env.npages ≤ PGNUM (clearLow12 p) →
          show_page_details env va =
            ("va 0x" ++ hex8 va ++ " -> pa 0x" ++ hex8 (clearLow12 p) ++ " [" ++
              pteFlagsString p ++ "]") ++ " (no physical memory present)") := by
  intro env va
  constructor
  · intro h
    simp [show_page_details, h]
  · intro p h hn
    simp [show_page_details, h, ge_iff_le, hn]

/-- C7 witness: an unmapped page of the trivial environment, and a
translation to frame 2 with only one managed page. -/
theorem c7_unmapped_and_missing_memory_witness :
    show_page_details env0 4096 = "va 0x" ++ hex8 4096 ++ " -> unmapped"
    ∧ show_page_details envC7 0 =
        ("va 0x" ++ hex8 0 ++ " -> pa 0x" ++ hex8 (clearLow12 0x2003) ++ " [" ++
          pteFlagsString 0x2003 ++ "]") ++ " (no physical memory present)" :=
  ⟨(c7_unmapped_and_missing_memory env0 4096).1 rfl,
   (c7_unmapped_and_missing_memory envC7 0).2 0x2003 rfl (by decide)⟩

/-- C8: memconst requires exactly one argument; a name in the fixed table
prints name colon hexadecimal value with status 0, an unknown name fails
with a message naming it, and any other argument count fails without
consulting the lookup function at all. -/
theorem c8_memconst_contract :
    (∀ nm va, get_va_ref_point nm = some va →
        mon_memconst ["memconst", nm] = ⟨0, [nm ++ ": 0x" ++ hex8 va]⟩)
    ∧ (∀ nm, get_va_ref_point nm = none →
        mon_memconst ["memconst", nm] =
          ⟨-1, ["memconst: unknown memory constant \x27" ++ nm ++ "\x27"]⟩)
    ∧ (∀ (lookup : String → Option Nat) (argv : List String), argv.length ≠ 2 →
        mon_memconst_gen lookup argv = ⟨-1, ["memconst expects a single argument"]⟩) := by
  refine ⟨?_, ?_, ?_⟩
  · intro nm va h
    simp [mon_memconst, mon_memconst_gen, h]
  · intro nm h
    simp [mon_memconst, mon_memconst_gen, h]
  · intro lookup argv h
    rcases argv with _ | ⟨a0, _ | ⟨a1, _ | ⟨a2, t⟩⟩⟩
    · rfl
    · rfl
    · simp at h
    · rfl

/-- C8 witness: the resolved name KERNBASE, an unknown name, and a call
with no arguments that fails the same way for every lookup function. -/
theorem c8_memconst_contract_witness :
    mon_memconst ["memconst", "KERNBASE"] =
      ⟨0, ["KERNBASE" ++ ": 0x" ++ hex8 KERNBASE]⟩
    ∧ mon_memconst ["memconst", "bogus"] =
        ⟨-1, ["memconst: unknown memory constant \x27" ++ "bogus" ++ "\x27"]⟩
    ∧ mon_memconst_gen get_va_ref_point [] =
        ⟨-1, ["memconst expects a single argument"]⟩ :=
  ⟨c8_memconst_contract.1 ("KERNBASE") KERNBASE rfl,
   c8_memconst_contract.2.1 ("bogus") rfl,
   c8_memconst_contract.2.2 get_va_ref_point [] (by decide)⟩

/-- The interpreter loop stops right after any line whose dispatch
returned a negative status: later lines are never dispatched. -/
theorem monitorSession_stops (env : KernelEnv) (fuel : Nat) (buf : String)
    (rest : List String) (r : CmdOut) (h : runcmd env fuel buf = some r)
    (hr : r.status < 0) :
    monitorSession env fuel (buf :: rest) = some [r] := by
  unfold monitorSession
  rw [h]
  simp [hr]

/-- C3: every argument-validation failure in pagemappings (wrong argument
count or malformed numeric literal) and in memconst (wrong argument count
or unknown constant name) returns a negative status to the dispatcher,
and the interpreter loop terminates whenever a dispatched status is
negative, so any such validation failure ends the whole session. -/
theorem c3_validation_failure_ends_session :
    (∀ env fuel argv, pmValidationFail argv = true →
        ∃ out, mon_pagemappings env fuel argv = some out ∧ out.status < 0)
    ∧ (∀ argv, mcValidationFail argv = true → (mon_memconst argv).status < 0)
    ∧ (∀ env fuel buf rest r, runcmd env fuel buf = some r → r.status < 0 →
        monitorSession env fuel (buf :: rest) = some [r]) := by
  refine ⟨?_, ?_, ?_⟩
  · intro env fuel argv hv
    rcases argv with _ | ⟨a0, _ | ⟨a1, _ | ⟨a2, _ | ⟨a3, t⟩⟩⟩⟩
    · exact ⟨_, mon_pagemappings_argc_low env fuel [] (by simp), by norm_num⟩
    · exact ⟨_, mon_pagemappings_argc_low env fuel [a0] (by simp), by norm_num⟩
    · have hp : parseNumber a1 = none := by
        simpa [pmValidationFail, Option.isNone_iff_eq_none] using hv
      exact ⟨_, mon_pagemappings_parse1_fail env fuel a0 a1 hp, by norm_num⟩
    · have hv2 : parseNumber a1 = none ∨ parseNumber a2 = none := by
        simpa [pmValidationFail, Option.isNone_iff_eq_none] using hv
      by_cases h1 : parseNumber a1 = none
      · exact ⟨_, mon_pagemappings_parse1_fail2 env fuel a0 a1 a2 h1, by norm_num⟩
      · obtain ⟨va1, hva1⟩ := Option.ne_none_iff_exists'.mp h1
        have h2 : parseNumber a2 = none := hv2.resolve_left h1
        exact ⟨_, mon_pagemappings_parse2_fail env fuel a0 a1 a2 va1 hva1 h2, by norm_num⟩
    · exact ⟨_, mon_pagemappings_argc_high env fuel _
        (by simp only [List.length_cons]; omega), by norm_num⟩
  · intro argv hv
    rcases argv with _ | ⟨a0, _ | ⟨a1, _ | ⟨a2, t⟩⟩⟩
    · norm_num [mon_memconst, mon_memconst_gen]
    · norm_num [mon_memconst, mon_memconst_gen]
    · have h : get_va_ref_point a1 = none := by
        simpa [mcValidationFail, Option.isNone_iff_eq_none] using hv
      norm_num [mon_memconst, mon_memconst_gen, h]
    · norm_num [mon_memconst, mon_memconst_gen]
  · intro env fuel buf rest r h hr
    exact monitorSession_stops env fuel buf rest r h hr

/-- C3 witness: a pagemappings call with no arguments fails negatively; an
unknown memconst name fails negatively; and a session stops at such a line,
never dispatching the help line after it. -/
theorem c3_validation_failure_ends_session_witness :
    (∃ out, mon_pagemappings env0 0 ["pagemappings"] = some out ∧ out.status < 0)
    ∧ (mon_memconst ["memconst", "bogus2"]).status < 0
    ∧ monitorSession env0 0 ["memconst bogus2", "help"] =
        some [⟨-1, ["memconst: unknown memory constant \x27" ++ "bogus2" ++ "\x27"]⟩] :=
  ⟨c3_validation_failure_ends_session.1 env0 0 ["pagemappings"] (by decide),
   c3_validation_failure_ends_session.2.1 ["memconst", "bogus2"] (by decide),
   c3_validation_failure_ends_session.2.2 env0 0 ("memconst bogus2") ["help"]
     ⟨-1, ["memconst: unknown memory constant \x27" ++ "bogus2" ++ "\x27"]⟩ rfl
     (by norm_num)⟩
